import Mathlib

/-!
Verification development for the VirtualInterview question-generation /
response-parsing / scoring pipeline.

The definitions below are a shallow embedding of the TypeScript sources:
  * the Groq client module (`waitForRateLimit`, `makeGroqRequest`,
    `parseJsonResponse`, `validateQuestionResponse`, `generateQuestionPrompt`,
    `generateQuestion`, `analyzeResponse`), and
  * the two API route handlers (the analyze route and the question route).

JavaScript values flowing through the pipeline are modelled by the `Json`
inductive; `JSON.parse` is modelled by a strict recursive-descent parser
(`parseJsonChars`); the regex-based repair pass is modelled substitution by
substitution; the rate limiter is modelled with explicit wall-clock time
passing.  JS numbers are modelled as exact rationals (the inputs exercised
here are small and exactly representable).
-/

/-- JSON values as produced by `JSON.parse`.  Object fields are kept in
insertion order with duplicate keys collapsed last-wins, matching JS object
semantics. -/
inductive Json where
  | null
  | bool (b : Bool)
  | num (q : ℚ)
  | str (s : String)
  | arr (elems : List Json)
  | obj (fields : List (String × Json))

namespace Json

/-- JS property read `j[k]`: defined (some) only on objects; reading a
property of a non-object yields `undefined` (or throws for `null`), both
modelled as `none`. -/
def getField (j : Json) (k : String) : Option Json :=
  match j with
  | .obj fs => match fs.find? (fun p => p.1 == k) with
               | some p => some p.2
               | none => none
  | _ => none

/-- JS `k in j` membership test (the validator and parser use it on parsed
objects; on non-objects JS throws, which the callers turn into a rejection,
so `false` is the faithful outcome for them). -/
def hasField (j : Json) (k : String) : Bool :=
  match j with
  | .obj fs => fs.any (fun p => p.1 == k)
  | _ => false

/-- JS property write `j[k] = v` on an object: overwrite in place if the key
exists, otherwise append (JS insertion-order semantics). -/
def setField (j : Json) (k : String) (v : Json) : Json :=
  match j with
  | .obj fs =>
      if fs.any (fun p => p.1 == k) then
        .obj (fs.map (fun p => if p.1 == k then (p.1, v) else p))
      else
        .obj (fs ++ [(k, v)])
  | _ => j

/-- JS truthiness of a parsed JSON value. -/
def truthy : Json → Bool
  | .null => false
  | .bool b => b
  | .num q => q != 0
  | .str s => s ≠ ""
  | .arr _ => true
  | .obj _ => true

/-- JS `Array.isArray`. -/
def isArr : Json → Bool
  | .arr _ => true
  | _ => false

end Json

/-! ### A model of `JSON.parse`

Strict JSON grammar: the four whitespace characters, `null`/`true`/`false`,
double-quoted strings with the standard escapes and no raw control
characters, numbers, arrays and objects.  Numbers are read into `ℚ`.
`\uXXXX` escapes are decoded with `Char.ofNat` (lone surrogates, which JS
would keep as unpaired code units, do not occur in any input used here). -/

/-- JSON whitespace (the only whitespace `JSON.parse` accepts). -/
def isJsonWs (c : Char) : Bool :=
  c = ' ' || c = '\t' || c = '\n' || c = '\r'

def skipWs (cs : List Char) : List Char :=
  cs.dropWhile isJsonWs

def hexDigit? (c : Char) : Option Nat :=
  if '0' ≤ c ∧ c ≤ '9' then some (c.toNat - '0'.toNat)
  else if 'a' ≤ c ∧ c ≤ 'f' then some (c.toNat - 'a'.toNat + 10)
  else if 'A' ≤ c ∧ c ≤ 'F' then some (c.toNat - 'A'.toNat + 10)
  else none

def isDigit (c : Char) : Bool := '0' ≤ c && c ≤ '9'

def digitsToNat (ds : List Char) : Nat :=
  ds.foldl (fun acc c => acc * 10 + (c.toNat - '0'.toNat)) 0

/-- Parse the body of a JSON string after the opening quote; returns the
decoded characters and the input remaining after the closing quote. -/
def parseStringBody : Nat → List Char → Option (List Char × List Char)
  | 0, _ => none
  | _ + 1, [] => none
  | fuel + 1, c :: cs =>
    if c = '"' then some ([], cs)
    else if c = '\\' then
      match cs with
      | [] => none
      | e :: cs' =>
        let dec : Option (Char × List Char) :=
          if e = '"' then some ('"', cs')
          else if e = '\\' then some ('\\', cs')
          else if e = '/' then some ('/', cs')
          else if e = 'b' then some ('\x08', cs')
          else if e = 'f' then some ('\x0c', cs')
          else if e = 'n' then some ('\n', cs')
          else if e = 'r' then some ('\r', cs')
          else if e = 't' then some ('\t', cs')
          else if e = 'u' then
            match cs' with
            | h1 :: h2 :: h3 :: h4 :: cs'' =>
              match hexDigit? h1, hexDigit? h2, hexDigit? h3, hexDigit? h4 with
              | some a, some b, some d, some e4 =>
                  some (Char.ofNat (((a * 16 + b) * 16 + d) * 16 + e4), cs'')
              | _, _, _, _ => none
            | _ => none
          else none
        match dec with
        | some (d, rest) =>
          match parseStringBody fuel rest with
          | some (tail, rest') => some (d :: tail, rest')
          | none => none
        | none => none
    else if c.toNat < 0x20 then none   -- raw control characters are rejected
    else
      match parseStringBody fuel cs with
      | some (tail, rest') => some (c :: tail, rest')
      | none => none

/-- Parse a JSON number at the head of the input (grammar:
`-?(0|[1-9][0-9]*)(.[0-9]+)?([eE][+-]?[0-9]+)?`). -/
def parseNumber (cs : List Char) : Option (ℚ × List Char) :=
  let (neg, cs1) := match cs with
    | '-' :: rest => (true, rest)
    | _ => (false, cs)
  let intDigits := cs1.takeWhile isDigit
  let intOk : Bool :=
    match intDigits with
    | [] => false
    | [_] => true
    | d :: _ => d ≠ '0'     -- no leading zeros
  if ¬ intOk then none else
  let cs2 := cs1.drop intDigits.length
  let (fracDigits, cs3) := match cs2 with
    | '.' :: rest =>
        let fd := rest.takeWhile isDigit
        (fd, rest.drop fd.length)
    | _ => ([], cs2)
  let fracOk : Bool := match cs2 with
    | '.' :: _ => fracDigits ≠ []
    | _ => true
  if ¬ fracOk then none else
  let expPart : Option (Option (Bool × List Char) × List Char) := match cs3 with
    | e :: rest =>
      if e = 'e' ∨ e = 'E' then
        let (eneg, rest1) := match rest with
          | '+' :: r => (false, r)
          | '-' :: r => (true, r)
          | _ => (false, rest)
        let ed := rest1.takeWhile isDigit
        if ed = [] then none else some (some (eneg, ed), rest1.drop ed.length)
      else some (none, cs3)
    | [] => some (none, cs3)
  match expPart with
  | none => none
  | some (expInfo, cs4) =>
    let mantissa : ℤ := (digitsToNat (intDigits ++ fracDigits) : ℤ)
    let signedMantissa : ℤ := if neg then -mantissa else mantissa
    let expVal : ℤ := match expInfo with
      | none => 0
      | some (eneg, ed) => if eneg then -(digitsToNat ed : ℤ) else (digitsToNat ed : ℤ)
    -- the value is signedMantissa · 10 ^ (expVal - fracDigits.length), as an
    -- exact rational
    let shift : ℤ := expVal - (fracDigits.length : ℤ)
    let value : ℚ :=
      if 0 ≤ shift then mkRat (signedMantissa * (10 : ℤ) ^ shift.toNat) 1
      else mkRat signedMantissa ((10 : ℕ) ^ (-shift).toNat)
    some (value, cs4)

/-- Insert an object member JS-style: a repeated key overwrites the earlier
value but keeps its original position. -/
def insertMember (fs : List (String × Json)) (k : String) (v : Json) : List (String × Json) :=
  if fs.any (fun p => p.1 == k) then
    fs.map (fun p => if p.1 == k then (p.1, v) else p)
  else
    fs ++ [(k, v)]

mutual

/-- Parse one JSON value (leading whitespace allowed); returns the value and
the remaining input. -/
def parseValue : Nat → List Char → Option (Json × List Char)
  | 0, _ => none
  | fuel + 1, cs =>
    match skipWs cs with
    | [] => none
    | c :: rest =>
      if c = 'n' then
        match rest with
        | 'u' :: 'l' :: 'l' :: rest' => some (.null, rest')
        | _ => none
      else if c = 't' then
        match rest with
        | 'r' :: 'u' :: 'e' :: rest' => some (.bool true, rest')
        | _ => none
      else if c = 'f' then
        match rest with
        | 'a' :: 'l' :: 's' :: 'e' :: rest' => some (.bool false, rest')
        | _ => none
      else if c = '"' then
        match parseStringBody (rest.length + 1) rest with
        | some (body, rest') => some (.str (String.mk body), rest')
        | none => none
      else if c = '[' then
        match skipWs rest with
        | ']' :: rest' => some (.arr [], rest')
        | _ => parseElems fuel rest []
      else if c = '\x7b' then
        match skipWs rest with
        | '\x7d' :: rest' => some (.obj [], rest')
        | _ => parseMembers fuel rest []
      else
        match parseNumber (c :: rest) with
        | some (q, rest') => some (.num q, rest')
        | none => none

/-- Parse the elements of a non-empty array (input positioned after `[`). -/
def parseElems : Nat → List Char → List Json → Option (Json × List Char)
  | 0, _, _ => none
  | fuel + 1, cs, acc =>
    match parseValue fuel cs with
    | none => none
    | some (v, rest) =>
      match skipWs rest with
      | ',' :: rest' => parseElems fuel rest' (acc ++ [v])
      | ']' :: rest' => some (.arr (acc ++ [v]), rest')
      | _ => none

/-- Parse the members of a non-empty object (input positioned after the
opening brace). -/
def parseMembers : Nat → List Char → List (String × Json) → Option (Json × List Char)
  | 0, _, _ => none
  | fuel + 1, cs, acc =>
    match skipWs cs with
    | '"' :: rest =>
      match parseStringBody (rest.length + 1) rest with
      | none => none
      | some (key, rest1) =>
        match skipWs rest1 with
        | ':' :: rest2 =>
          match parseValue fuel rest2 with
          | none => none
          | some (v, rest3) =>
            let acc' := insertMember acc (String.mk key) v
            match skipWs rest3 with
            | ',' :: rest4 => parseMembers fuel rest4 acc'
            | '\x7d' :: rest4 => some (.obj acc', rest4)
            | _ => none
        | _ => none
    | _ => none

end

/-- Model of `JSON.parse` on a character list: one value, then only
trailing whitespace. -/
def parseJsonChars (cs : List Char) : Option Json :=
  match parseValue (cs.length + 1) cs with
  | some (j, rest) => if skipWs rest = [] then some j else none
  | none => none

/-- Model of `JSON.parse` on a string. -/
def parseJson (s : String) : Option Json :=
  parseJsonChars s.data

/-! ### JS string helpers used by the pipeline -/

/-- The JS `\s` regex class / `String.prototype.trim` whitespace set
(ASCII whitespace, NBSP, the Unicode space separators, line/paragraph
separators and the BOM). -/
def isJsSpace (c : Char) : Bool :=
  c = ' ' || c = '\t' || c = '\n' || c = '\r' || c = '\x0b' || c = '\x0c' ||
  c.toNat = 0xa0 || c.toNat = 0x1680 ||
  (0x2000 ≤ c.toNat && c.toNat ≤ 0x200a) ||
  c.toNat = 0x2028 || c.toNat = 0x2029 || c.toNat = 0x202f ||
  c.toNat = 0x205f || c.toNat = 0x3000 || c.toNat = 0xfeff

/-- The `\w` regex class. -/
def isWordChar (c : Char) : Bool :=
  ('a' ≤ c && c ≤ 'z') || ('A' ≤ c && c ≤ 'Z') || ('0' ≤ c && c ≤ '9') || c = '_'

/-- JS `toUpperCase` (the inputs exercised here are ASCII, where
`Char.toUpper` agrees with JS). -/
def jsToUpper (s : String) : String := String.mk (s.data.map Char.toUpper)

/-- JS `toLowerCase` (ASCII inputs). -/
def jsToLower (s : String) : String := String.mk (s.data.map Char.toLower)

/-- Does `needle` occur as a contiguous sublist of `hay`? -/
def containsSub (needle : List Char) : List Char → Bool
  | [] => needle.isEmpty
  | c :: cs => needle.isPrefixOf (c :: cs) || containsSub needle cs

/-- JS `String.prototype.includes` (case-sensitive substring test). -/
def jsIncludes (s sub : String) : Bool := containsSub sub.data s.data

/-! ### The repair pass of `parseJsonResponse`

Each of the nine chained `.replace` calls (source lines 141-150 of the Groq
client) is modelled separately, in order.  The global-regex replacements
with a nontrivial pattern are expressed with a generic left-to-right
scanner: at each position the matcher either fires — emitting the
replacement text and resuming after the match — or the character is copied
and the scan advances by one, exactly the semantics of
`String.prototype.replace` with the `g` flag. -/

/-- One left-to-right global-replace scan.  `step` inspects the input at the
current position; on a match it returns the emitted replacement and the
input remaining after the matched span (always a strict suffix, so `fuel =
length` suffices). -/
def replaceScan (step : List Char → Option (List Char × List Char)) :
    Nat → List Char → List Char
  | 0, cs => cs
  | _ + 1, [] => []
  | fuel + 1, c :: cs =>
    match step (c :: cs) with
    | some (out, rest) => out ++ replaceScan step fuel rest
    | none => c :: replaceScan step fuel cs

/-- Does the matcher fire at some position of the input? -/
def scanMatches (step : List Char → Option (List Char × List Char)) :
    List Char → Bool
  | [] => false
  | c :: cs => (step (c :: cs)).isSome || scanMatches step cs

/-- Step one, the trim regex (global replace of leading/trailing JS
whitespace by the empty string). -/
def jsTrimChars (cs : List Char) : List Char :=
  ((cs.dropWhile isJsSpace).reverse.dropWhile isJsSpace).reverse

/-- A zero-width character (U+200B through U+200D, or U+FEFF). -/
def isZeroWidth (c : Char) : Bool :=
  (0x200b ≤ c.toNat && c.toNat ≤ 0x200d) || c.toNat = 0xfeff

/-- Step two: remove every zero-width character. -/
def stripZeroWidth (cs : List Char) : List Char :=
  cs.filter (fun c => ¬ isZeroWidth c)

/-- Matcher for the trailing-comma regex (a comma, whitespace, then a
closing brace or bracket; replaced by the first capture group, dropping
the comma and keeping the whitespace and the closing bracket). -/
def stepTrailingComma (cs : List Char) : Option (List Char × List Char) :=
  match cs with
  | ',' :: rest =>
    let ws := rest.takeWhile isJsSpace
    match rest.drop ws.length with
    | b :: rest2 => if b = '\x7d' ∨ b = ']' then some (ws ++ [b], rest2) else none
    | [] => none
  | _ => none

/-- Matcher for the unquoted-key regex (an opening brace or comma,
whitespace, a word, whitespace, then a colon; the word is wrapped in
double quotes, everything else kept). -/
def stepQuoteKey (cs : List Char) : Option (List Char × List Char) :=
  match cs with
  | c :: rest =>
    if c = '\x7b' ∨ c = ',' then
      let ws1 := rest.takeWhile isJsSpace
      let r1 := rest.drop ws1.length
      let word := r1.takeWhile isWordChar
      if word.isEmpty then none
      else
        let r2 := r1.drop word.length
        let ws2 := r2.takeWhile isJsSpace
        match r2.drop ws2.length with
        | ':' :: r3 =>
            some (c :: ws1 ++ '"' :: word ++ '"' :: ws2 ++ [':'], r3)
        | _ => none
    else none
  | [] => none

/-- Matcher for the single-quoted-value regex (a colon, whitespace, then a
single-quoted run without inner single quotes): the value is rewritten in
double quotes, and the whitespace after the colon is not in a capture
group, so it is dropped. -/
def stepSingleQuote (cs : List Char) : Option (List Char × List Char) :=
  match cs with
  | ':' :: rest =>
    let ws := rest.takeWhile isJsSpace
    match rest.drop ws.length with
    | '\x27' :: r1 =>
      let content := r1.takeWhile (fun c => c ≠ '\x27')
      match r1.drop content.length with
      | '\x27' :: r2 => some (':' :: '"' :: content ++ ['"'], r2)
      | _ => none
    | _ => none
  | _ => none

/-- Matcher for the invalid-escape regex: a backslash whose following
character is not one of the legal JSON escape leads loses the backslash. -/
def stepInvalidEscape (cs : List Char) : Option (List Char × List Char) :=
  match cs with
  | '\\' :: d :: rest =>
    if d = '"' ∨ d = '\\' ∨ d = '/' ∨ d = 'b' ∨ d = 'f' ∨ d = 'n' ∨
       d = 'r' ∨ d = 't' ∨ d = 'u' then none
    else some ([d], rest)
  | _ => none

/-- Steps seven to nine: expand one literal control character (newline,
carriage return or tab) to its two-character backslash escape. -/
def expandCtl (target : Char) (sub : Char) (cs : List Char) : List Char :=
  (cs.map (fun c => if c = target then ['\\', sub] else [c])).flatten

/-- The full repair pass (source lines 141-150), the nine substitutions in
source order. -/
def repairChars (cs : List Char) : List Char :=
  let c1 := jsTrimChars cs
  let c2 := stripZeroWidth c1
  let c3 := replaceScan stepTrailingComma c2.length c2
  let c4 := replaceScan stepQuoteKey c3.length c3
  let c5 := replaceScan stepSingleQuote c4.length c4
  let c6 := replaceScan stepInvalidEscape c5.length c5
  let c7 := expandCtl '\n' 'n' c6
  let c8 := expandCtl '\r' 'r' c7
  expandCtl '\t' 't' c8

/-- The full repair pass on a string. -/
def repairResponse (s : String) : String := String.mk (repairChars s.data)

/-! ### `parseJsonResponse` (source lines 102-170) -/

/-- The regex `/\x7b[\s\S]*\x7d/` match: the span from the first opening
brace through the last closing brace, provided the closing brace comes
after the opening one; `none` when the regex does not match. -/
def extractJsonCandidate (s : String) : Option (List Char) :=
  let afterFirst := s.data.dropWhile (fun c => c ≠ '\x7b')
  let span := (afterFirst.reverse.dropWhile (fun c => c ≠ '\x7d')).reverse
  if span.isEmpty then none else some span

/-- The distinguishable failure modes of `parseJsonResponse`.  In the source
all of them are thrown `Error`s; the constructors keep the
diagnostic payloads (the missing field names, the repaired text) that the
source interpolates into its messages. -/
inductive ParseError where
  | invalidResponse                                            -- empty input
  | noJsonFound                                                -- regex did not match
  | missingAfterCleaning (fields : List String) (cleaned : String)
  | finalParse (cleaned : String)                              -- repaired text still unparsable
deriving DecidableEq

/-- The repair-and-retry branch (the inner `try` of the `catch` block): any
failure inside it — including a missing-fields failure after a successful
repaired parse — is wrapped into the final parse error. -/
def attemptRepair (cand : List Char) (requiredFields : List String) :
    Except ParseError Json :=
  let cleaned := repairChars cand
  match parseJsonChars cleaned with
  | some parsed =>
    let missing := requiredFields.filter (fun f => !parsed.hasField f)
    if missing.isEmpty then .ok parsed
    else .error (.missingAfterCleaning missing (String.mk cleaned))
  | none => .error (.finalParse (String.mk cleaned))

/-- Model of `parseJsonResponse(response, requiredFields)`.  A successful first parse
whose result lacks a required field throws inside the `try` block, so it
falls through to the repair path, exactly as in the source. -/
def parseJsonResponse (response : String)
    (requiredFields : List String := ["question", "expectedTopics", "difficulty", "modelAnswer"]) :
    Except ParseError Json :=
  if response = "" then .error .invalidResponse
  else
    match extractJsonCandidate response with
    | none => .error .noJsonFound
    | some cand =>
      match parseJsonChars cand with
      | some parsed =>
        if (requiredFields.filter (fun f => !parsed.hasField f)).isEmpty then .ok parsed
        else attemptRepair cand requiredFields
      | none => attemptRepair cand requiredFields

/-! ### `validateQuestionResponse` (source lines 172-222) -/

/-- Option-level truthiness: a missing property (`undefined`) is falsy. -/
def truthyOpt : Option Json → Bool
  | some v => v.truthy
  | none => false

/-- JS test of typeof against the string "object" for a present JSON value
(`null`, arrays and objects all have that typeof). -/
def typeofIsObject : Option Json → Bool
  | some .null => true
  | some (.arr _) => true
  | some (.obj _) => true
  | _ => false

def mcqLabels : List String := ["A", "B", "C", "D"]

/-- Model of `validateQuestionResponse(response, questionType)`: returns the payload
unchanged on success, or the thrown error message.  JS quirks modelled
exactly: all option/correctOption/explanation checks use truthiness, the
`correctOption` membership test uses `===` (so only the exact strings
`"A".."D"` pass), and an empty `explanation` string is falsy and rejected. -/
def validateQuestionResponse (response : Json) (questionType : String) :
    Except String Json :=
  if ¬ response.truthy then .error "Response cannot be null or undefined"
  else
    let requiredFields := ["question", "expectedTopics", "difficulty", "modelAnswer"]
    let missingFields := requiredFields.filter (fun f => !response.hasField f)
    if ¬ missingFields.isEmpty then
      .error ("Missing required fields: " ++ String.intercalate ", " missingFields)
    else if !(match response.getField "expectedTopics" with
               | some (.arr _) => true | _ => false) then
      .error "expectedTopics must be an array"
    else if !(match response.getField "difficulty" with
               | some (.num _) => true | _ => false) then
      .error "difficulty must be a number"
    else
      let ma := (response.getField "modelAnswer").getD .null
      if jsToLower questionType = "mcq" then
        let opts := ma.getField "options"
        if !truthyOpt opts || !typeofIsObject opts then
          .error "MCQ response must include options object"
        else
          let optsV := opts.getD .null
          let missingOptions := mcqLabels.filter (fun o => !optsV.hasField o)
          if ¬ missingOptions.isEmpty then
            .error ("Missing MCQ options: " ++ String.intercalate ", " missingOptions)
          else
            let coOk : Bool := match ma.getField "correctOption" with
              | some (.str s) => mcqLabels.contains s
              | _ => false
            if !coOk then
              .error "MCQ response must include a valid correctOption (A, B, C, or D)"
            else
              let exOk : Bool := match ma.getField "explanation" with
                | some (.str s) => s ≠ ""
                | _ => false
              if !exOk then .error "MCQ response must include an explanation"
              else .ok response
      else if jsToLower questionType = "coding" then
        let isCodeOk : Bool := truthyOpt (ma.getField "isCode")
        let contentOk : Bool := match ma.getField "content" with
          | some (.str _) => true | _ => false
        if !isCodeOk || !contentOk then
          .error "Coding response must include isCode flag and content"
        else .ok response
      else
        match ma.getField "content" with
        | some (.str _) => .ok response
        | _ => .error "Model answer must include content string"

/-! ### The score/topics normalization of `analyzeResponse`
(source lines 459-475) -/

/-- The score normalization applied to a numeric model-returned score:
`if (score > 10) score = Math.min(10, score / 10)` then
`score = Math.max(0, Math.min(10, score))`. -/
def normalizeScore (s : ℚ) : ℚ :=
  let s1 := if s > 10 then min 10 (s / 10) else s
  max 0 (min 10 s1)

/-- JS numeric-typeof test: the numeric value of the field, when it
holds one. -/
def numField? (j : Json) (k : String) : Option ℚ :=
  match j.getField k with
  | some (.num s) => some s
  | _ => none

/-- JS `Array.isArray` on a field. -/
def isArrField (j : Json) (k : String) : Bool :=
  match j.getField k with
  | some (.arr _) => true
  | _ => false

/-- The post-parse mutation of the analysis object: coerce `score` to a
clamped number (0 when non-numeric) and `coveredTopics`/`missingTopics` to
arrays when they hold a non-array value. -/
def finalizeAnalysis (result : Json) : Json :=
  let r1 := match numField? result "score" with
    | some s => result.setField "score" (.num (normalizeScore s))
    | none => result.setField "score" (.num 0)
  let r2 := if isArrField r1 "coveredTopics" then r1
            else r1.setField "coveredTopics" (.arr [])
  if isArrField r2 "missingTopics" then r2
  else r2.setField "missingTopics" (.arr [])

/-- The required fields `analyzeResponse` passes to `parseJsonResponse`
(`improvement` is deliberately optional). -/
def analyzeRequiredFields : List String :=
  ["score", "feedback", "coveredTopics", "missingTopics"]

/-- What `analyzeResponse` does with the raw completion text: parse it with
the four required scoring fields, then normalize score and topic arrays.
A parse failure (including a missing required field) propagates. -/
def analyzeResponseFromContent (content : String) : Except ParseError Json :=
  (parseJsonResponse content analyzeRequiredFields).map finalizeAnalysis

/-! ### The analyze API route (MCQ scoring, route source lines 16-53) -/

/-- The scoring result the analyze route builds for an MCQ answer. -/
structure McqAnalysis where
  score : ℚ
  feedback : String
  coveredTopics : List String
  missingTopics : List String
deriving DecidableEq

/-- The deterministic MCQ comparison of the analyze route: uppercase both
the candidate selection and the stored correct option and compare.  The
`explanation` request field may be absent (it is interpolated as
`explanation || ''`). -/
def mcqAnalyze (response correctOption : String) (explanation : Option String)
    (expectedTopics : List String) : McqAnalysis :=
  let isCorrect := jsToUpper response == jsToUpper correctOption
  { score := if isCorrect then 10 else 0
    feedback :=
      if isCorrect then "Correct! " ++ explanation.getD ""
      else "Incorrect. The correct answer is " ++ correctOption ++ ". " ++ explanation.getD ""
    coveredTopics := if isCorrect then expectedTopics else []
    missingTopics := if isCorrect then [] else expectedTopics }

/-- Outcome of the analyze route handler before any model call: a 400
response, a deterministic MCQ result, or delegation to `analyzeResponse`
(the only path that reaches the network). -/
inductive AnalyzeRouteResult where
  | badRequest (msg : String)
  | mcqResult (a : McqAnalysis)
  | delegate (question response : String) (expectedTopics : List String)
deriving DecidableEq

/-- Dispatch in the analyze route handler (source lines 16-53).  Absent
request-body fields are `none`; the JS truthiness checks on the present
strings are modelled by emptiness tests (an empty `expectedTopics` array is
truthy in JS and passes). -/
def analyzeRoute (question response : String)
    (expectedTopics : Option (List String)) (questionType : String)
    (correctOption explanation : Option String) : AnalyzeRouteResult :=
  match expectedTopics with
  | none => .badRequest "Missing required fields"
  | some ets =>
    if question = "" ∨ response = "" ∨ questionType = "" then
      .badRequest "Missing required fields"
    else if jsToLower questionType = "mcq" then
      match correctOption with
      | none => .badRequest "Missing correct option for MCQ"
      | some co =>
        if co = "" then .badRequest "Missing correct option for MCQ"
        else .mcqResult (mcqAnalyze response co explanation ets)
    else
      .delegate question response ets

/-! ### `generateQuestionPrompt` (source lines 245-371) -/

/-- The difficulty-tier ternary embedded verbatim in each template:
`difficulty === 'Easy' ? 1 : difficulty === 'Medium' ? 2 : 3`.
The comparison is case-sensitive. -/
def difficultyTierLiteral (difficulty : String) : Nat :=
  if difficulty = "Easy" then 1 else if difficulty = "Medium" then 2 else 3

/-- Model of `generateQuestionPrompt(technology, difficulty, questionNumber,
questionType)` — the four template literals, transcribed with their
interpolations. -/
def generateQuestionPrompt (technology difficulty : String)
    (questionNumber : Nat) (questionType : String) : String :=
  let tier := toString (difficultyTierLiteral difficulty)
  if jsToLower questionType = "mcq" then
    "You are a technical interviewer specializing in " ++ technology ++
    ". Generate a multiple choice question (MCQ) that tests knowledge of " ++ technology ++
    ".\n\nThe question should:\n1. Test specific knowledge in " ++ technology ++
    "\n2. Be appropriate for " ++ difficulty ++
    " difficulty level\n3. Have exactly 4 options (A, B, C, D)\n4. Have only one correct answer\n5. Question number " ++
    toString questionNumber ++
    " in the sequence - ensure it\x27s completely different from previous questions\n6. Include clear explanations for why each option is correct or incorrect\n\nIMPORTANT: Return ONLY a valid JSON object with the following fields:\n\x7b\n  \"question\": \"The MCQ question text - must be specific to " ++
    technology ++
    "\",\n  \"expectedTopics\": [\n    \"List of concepts being tested\",\n    \"Key " ++
    technology ++
    " knowledge points covered\"\n  ],\n  \"difficulty\": " ++ tier ++
    ",\n  \"modelAnswer\": \x7b\n    \"options\": \x7b\n      \"A\": \"First option\",\n      \"B\": \"Second option\",\n      \"C\": \"Third option\",\n      \"D\": \"Fourth option\"\n    \x7d,\n    \"correctOption\": \"The correct option letter (A, B, C, or D)\",\n    \"explanation\": \"Detailed explanation of why the correct answer is right and why others are wrong\"\n  \x7d\n\x7d\n\nReturn ONLY the JSON object, no additional text. Ensure all strings are properly escaped."
  else if jsToLower questionType = "subjective" then
    "You are a technical interviewer specializing in " ++ technology ++
    ". Generate a logical reasoning and analytical thinking question that is relevant to " ++
    technology ++
    " development scenarios.\n\nThe question should:\n1. Test critical thinking and problem-solving abilities in the context of " ++
    technology ++ " projects\n2. Focus on real-world scenarios a " ++ technology ++
    " developer might face\n3. Be appropriate for " ++ difficulty ++
    " difficulty level\n4. Test decision-making and analytical skills specific to " ++
    technology ++ " development\n5. Question number " ++ toString questionNumber ++
    " in the sequence - ensure it\x27s different from previous questions\n\nIMPORTANT: Return ONLY a valid JSON object with the following fields:\n\x7b\n  \"question\": \"The question text - must be specific to " ++
    technology ++
    "\",\n  \"expectedTopics\": [\n    \"List of 4-5 key points that should be covered in the answer\",\n    \"Each point should be relevant to " ++
    technology ++
    "\"\n  ],\n  \"difficulty\": " ++ tier ++
    ",\n  \"modelAnswer\": \x7b\n    \"isCode\": false,\n    \"content\": \"A detailed explanation of what a good answer should include, specific to " ++
    technology ++
    "\"\n  \x7d\n\x7d\n\nReturn ONLY the JSON object, no additional text. Ensure all strings are properly escaped."
  else if jsToLower questionType = "coding" then
    "You are a technical interviewer specializing in " ++ technology ++
    ". Generate a coding question that tests practical " ++ technology ++
    " implementation skills.\n\nThe question should:\n1. Test coding ability in " ++
    technology ++ "\n2. Be appropriate for " ++ difficulty ++
    " difficulty level\n3. Focus on real-world scenarios\n4. Be clear and unambiguous\n5. Question number " ++
    toString questionNumber ++
    " in the sequence - ensure it\x27s different from previous questions\n\nIMPORTANT: Return ONLY a valid JSON object with the following fields. Ensure all code in the content field is properly escaped:\n\x7b\n  \"question\": \"The coding problem statement with clear requirements and examples\",\n  \"expectedTopics\": [\n    \"List of concepts and skills being tested\",\n    \"Important considerations for the implementation\"\n  ],\n  \"difficulty\": " ++
    tier ++
    ",\n  \"modelAnswer\": \x7b\n    \"isCode\": true,\n    \"content\": \"// Your code solution here\\n// Use double backslashes for newlines\\n// Escape all quotes\"\n  \x7d\n\x7d\n\nRULES for the content field:\n1. Use double backslashes for newlines (\\n)\n2. Escape all quotes (\\\" for double quotes)\n3. Avoid using backticks\n4. Keep indentation using spaces (no tabs)\n5. Escape any special characters\n\nReturn ONLY the JSON object, no additional text."
  else
    "You are a technical interviewer specializing in " ++ technology ++
    ". Generate a multiple-choice question that tests " ++ technology ++
    " knowledge.\n\nThe question should:\n1. Test understanding of " ++ technology ++
    " concepts\n2. Be appropriate for " ++ difficulty ++
    " difficulty level\n3. Have clear, unambiguous options\n4. Question number " ++
    toString questionNumber ++
    " in the sequence - ensure it\x27s different from previous questions\n\nIMPORTANT: Return ONLY a valid JSON object with the following fields:\n\x7b\n  \"question\": \"The question text\",\n  \"expectedTopics\": [\"Key concepts being tested\"],\n  \"difficulty\": " ++
    tier ++
    ",\n  \"modelAnswer\": \x7b\n    \"isCode\": false,\n    \"content\": \"Explanation of why the correct answer is right\"\n  \x7d,\n  \"options\": [\n    \"A) First option\",\n    \"B) Second option\",\n    \"C) Third option\",\n    \"D) Fourth option\"\n  ],\n  \"correctOption\": \"A\"\n\x7d\n\nReturn ONLY the JSON object, no additional text. Ensure all strings are properly escaped."

/-- The scoring prompt of `analyzeResponse` (source lines 423-444). -/
def analyzeScoringPrompt (question response : String)
    (expectedTopics : List String) : String :=
  "Analyze this response to the following interview question. Provide feedback and a score out of 10.\n\nQuestion: " ++
  question ++ "\n\nResponse: " ++ response ++
  "\n\nExpected topics to be covered:\n" ++
  String.intercalate "\n" (expectedTopics.map (fun t => "- " ++ t)) ++
  "\n\nReturn your analysis in this JSON format:\n\x7b\n  \"score\": 8,\n  \"feedback\": \"Detailed feedback about the response\",\n  \"coveredTopics\": [\"Topics that were covered well in the response\"],\n  \"missingTopics\": [\"Expected topics that were not covered\"],\n  \"improvement\": \"Suggestions for improvement\"\n\x7d\n\nMake sure to:\n1. Score between 0 and 10 points only\n2. Include all topics from the expected topics list in either coveredTopics or missingTopics\n3. Provide specific, actionable feedback"

/-! ### Input cleaning in the question API route (route source lines 108-110) -/

/-- Model of `decodeURIComponent`, restricted to single-byte percent escapes (the
technology names exercised here contain none; JS additionally decodes
multi-byte UTF-8 sequences and throws `URIError` on malformed input). -/
def percentDecode : List Char → List Char
  | '%' :: a :: b :: rest =>
    (match hexDigit? a, hexDigit? b with
     | some x, some y => Char.ofNat (16 * x + y) :: percentDecode rest
     | _, _ => '%' :: a :: b :: percentDecode rest)
  | c :: rest => c :: percentDecode rest
  | [] => []

def decodeURIComponent (s : String) : String := String.mk (percentDecode s.data)

/-- Cleaning of the requested technology in the question route:
`decodeURIComponent(technology.trim())`. -/
def cleanTechnology (technology : String) : String :=
  decodeURIComponent (String.mk (jsTrimChars technology.data))

/-- Cleaning of the requested difficulty label in the question route:
`difficulty.trim().toLowerCase()`. -/
def cleanDifficulty (difficulty : String) : String :=
  jsToLower (String.mk (jsTrimChars difficulty.data))

/-- The prompt the question route causes to be sent for a given request:
the route cleans the inputs and `generateQuestion` builds the prompt from
the cleaned values. -/
def questionRoutePrompt (technology difficulty : String)
    (questionNumber : Nat) (questionType : String) : String :=
  generateQuestionPrompt (cleanTechnology technology) (cleanDifficulty difficulty)
    questionNumber questionType

/-- The numeric difficulty tier embedded in the prompt for a request
reaching the question route: the composition of the lowercasing in the route
with the case-sensitive ternary of the template. -/
def questionRouteTier (difficulty : String) : Nat :=
  difficultyTierLiteral (cleanDifficulty difficulty)

/-! ### Rate limiter (source lines 5-21)

`waitForRateLimit` is modelled with explicit wall-clock time passing: the
caller supplies the entry time (`Date.now()` at the top of the function)
and a nonnegative `overshoot` — the extra real time between the requested
sleep deadline and the moment the final `Date.now()` executes (zero or
more; `setTimeout` never fires early).  The model returns the moment the
call returns together with the new `lastRequestTime` it records. -/

def MIN_REQUEST_INTERVAL : ℤ := 3000

/-- One call to `waitForRateLimit`, given the module-level
`lastRequestTime`, the entry time and the overshoot.  First component:
the time at which the call returns; second: the recorded new
`lastRequestTime` (the final `Date.now()`, i.e. the same instant). -/
def waitForRateLimit (lastRequestTime now overshoot : ℤ) : ℤ × ℤ :=
  let timeSinceLastRequest := now - lastRequestTime
  let waitTime :=
    if timeSinceLastRequest < MIN_REQUEST_INTERVAL then
      MIN_REQUEST_INTERVAL - timeSinceLastRequest
    else 0
  let ret := now + waitTime + overshoot
  (ret, ret)

/-! ### `makeGroqRequest` and the two exported pipelines
(source lines 23-84, 373-416, 418-488) -/

/-- The failure modes of the Groq client, with the message text each throws
(`GroqError.message`). -/
inductive GroqError where
  | configuration                           -- missing API credential
  | rateLimit                               -- remote HTTP 429
  | transport (status : Nat) (statusText : String)
  | network (msg : String)                  -- fetch rejected
  | protocol                                -- envelope lacked choices[0].message.content
  | parse (e : ParseError)
  | schema (msg : String)                   -- validateQuestionResponse failure
deriving DecidableEq

/-- The `error.message` each `GroqError` carries (the deterministic part of
the message of the thrown `Error`; the engine-specific `JSON.parse` text inside
the final parse failure is elided). -/
def GroqError.message : GroqError → String
  | .configuration => "GROQ API key is not configured"
  | .rateLimit => "Rate limit exceeded"
  | .transport status statusText =>
      "API request failed: " ++ toString status ++ " " ++ statusText
  | .network m => m
  | .protocol => "Invalid response structure from GROQ API"
  | .parse .invalidResponse => "Response must be a non-empty string"
  | .parse .noJsonFound => "No JSON object found in response"
  | .parse (.missingAfterCleaning _ cleaned) =>
      "Failed to parse response as JSON: Missing required fields after cleaning\nResponse: " ++ cleaned
  | .parse (.finalParse cleaned) =>
      "Failed to parse response as JSON\nResponse: " ++ cleaned
  | .schema m => m

/-- The outcome of one `fetch` of the completion API: a resolved response
(status, status text and the JSON body that `response.json()` yields) or a
rejected promise. -/
inductive NetResult where
  | httpResponse (status : Nat) (statusText : String) (body : Json)
  | networkFailure (msg : String)

/-- Is `process.env.NEXT_PUBLIC_GROQ_API_KEY` falsy (unset or the empty
string)? -/
def jsFalsyKey : Option String → Bool
  | none => true
  | some s => s = ""

/-- One call to `makeGroqRequest(prompt)`.  Inputs: the configured API key,
the rate-limiter state (`lastRequestTime`), the wall-clock entry time and
sleep overshoot, and the network as a function of the sent prompt.
Output: the result, the rate-limiter state afterwards, and how many
network requests were issued.  The missing-credential check precedes both
the `waitForRateLimit()` call and the `fetch`. -/
def makeGroqRequest (apiKey : Option String) (prompt : String)
    (lastRequestTime now overshoot : ℤ) (net : String → NetResult) :
    Except GroqError Json × ℤ × Nat :=
  if jsFalsyKey apiKey then
    (.error .configuration, lastRequestTime, 0)
  else
    let newLast := (waitForRateLimit lastRequestTime now overshoot).2
    match net prompt with
    | .networkFailure m => (.error (.network m), newLast, 1)
    | .httpResponse status statusText body =>
      if ¬ (200 ≤ status ∧ status ≤ 299) then
        if status = 429 then (.error .rateLimit, newLast, 1)
        else (.error (.transport status statusText), newLast, 1)
      else (.ok body, newLast, 1)

/-- The optional chain through choices, message and content followed by the truthiness
guard: the raw completion text, or `none` when the envelope is not the
expected shape (a non-string or empty `content` also fails the guard
chain in the source). -/
def extractContent (resp : Json) : Option String :=
  match resp.getField "choices" with
  | some (.arr (c :: _)) =>
    (match c.getField "message" with
     | some m =>
       (match m.getField "content" with
        | some (.str s) => if s = "" then none else some s
        | _ => none)
     | none => none)
  | _ => none

/-- Model of `generateQuestion(technology, difficulty, questionNumber,
questionType)` as a run over explicit rate-limiter state and network:
build the prompt, call the client, read the completion, parse it with the
default required fields, validate it for the question type. -/
def generateQuestionRun (apiKey : Option String) (technology difficulty : String)
    (questionNumber : Nat) (questionType : String)
    (lastRequestTime now overshoot : ℤ) (net : String → NetResult) :
    Except GroqError Json × ℤ × Nat :=
  let prompt := generateQuestionPrompt technology difficulty questionNumber questionType
  match makeGroqRequest apiKey prompt lastRequestTime now overshoot net with
  | (.error e, l, n) => (.error e, l, n)
  | (.ok resp, l, n) =>
    match extractContent resp with
    | none => (.error .protocol, l, n)
    | some content =>
      match parseJsonResponse content with
      | .error pe => (.error (.parse pe), l, n)
      | .ok parsed =>
        match validateQuestionResponse parsed questionType with
        | .error m => (.error (.schema m), l, n)
        | .ok q => (.ok q, l, n)

/-- Model of `analyzeResponse(question, response, expectedTopics)` as a run over
explicit rate-limiter state and network.  It re-checks the credential
itself before calling `makeGroqRequest`. -/
def analyzeResponseRun (apiKey : Option String) (question response : String)
    (expectedTopics : List String)
    (lastRequestTime now overshoot : ℤ) (net : String → NetResult) :
    Except GroqError Json × ℤ × Nat :=
  if jsFalsyKey apiKey then
    (.error .configuration, lastRequestTime, 0)
  else
    let prompt := analyzeScoringPrompt question response expectedTopics
    match makeGroqRequest apiKey prompt lastRequestTime now overshoot net with
    | (.error e, l, n) => (.error e, l, n)
    | (.ok resp, l, n) =>
      match extractContent resp with
      | none => (.error .protocol, l, n)
      | some content =>
        match analyzeResponseFromContent content with
        | .error pe => (.error (.parse pe), l, n)
        | .ok a => (.ok a, l, n)

/-! ### Error mapping in the question route (route source lines 139-157) -/

/-- The HTTP status the question route responds with when question
generation throws: 429 when a case-sensitive includes test against the lowercase text rate limit
(a case-sensitive test), otherwise the re-thrown error reaches the outer
handler and becomes a 500. -/
def questionRouteErrorStatus (e : GroqError) : Nat :=
  if jsIncludes e.message "rate limit" then 429 else 500

/-! ## Helper lemmas -/

lemma dropWhile_append_of_forall {p : Char → Bool} {l₁ l₂ : List Char}
    (h : ∀ c ∈ l₁, p c = true) :
    (l₁ ++ l₂).dropWhile p = l₂.dropWhile p := by
  induction l₁ with
  | nil => rfl
  | cons a l ih =>
    have ha : p a = true := h a (by simp)
    simp only [List.cons_append, List.dropWhile_cons, ha, if_true]
    exact ih (fun c hc => h c (by simp [hc]))

lemma dropWhile_cons_of_false {p : Char → Bool} {c : Char} {l : List Char}
    (h : p c = false) : (c :: l).dropWhile p = c :: l := by
  simp [List.dropWhile_cons, h]

lemma filter_not_isEmpty_of_all {α : Type} {p : α → Bool} {l : List α}
    (h : ∀ a ∈ l, p a = true) : (l.filter (fun a => !p a)).isEmpty = true := by
  induction l with
  | nil => rfl
  | cons a l ih =>
    have ha : p a = true := h a (by simp)
    have ht := ih (fun b hb => h b (by simp [hb]))
    simpa [List.filter_cons, ha] using ht

/-- The greedy brace-span extraction on a string whose leading prose has no
opening brace and whose trailing prose has no closing brace returns exactly
the embedded span. -/
lemma extractJsonCandidate_embedded (pre t post : List Char)
    (hpre : ∀ c ∈ pre, c ≠ '\x7b')
    (hpost : ∀ c ∈ post, c ≠ '\x7d')
    (hhead : t.head? = some '\x7b')
    (hlast : t.getLast? = some '\x7d') :
    extractJsonCandidate (String.mk (pre ++ t ++ post)) = some t := by
  obtain ⟨t', rfl⟩ : ∃ t', t = '\x7b' :: t' := by
    cases t with
    | nil => simp at hhead
    | cons a t' =>
      have ha : a = '\x7b' := by simpa using hhead
      exact ⟨t', by rw [ha]⟩
  unfold extractJsonCandidate
  have h1 : (pre ++ ('\x7b' :: t') ++ post).dropWhile (fun c => c ≠ '\x7b') =
      '\x7b' :: t' ++ post := by
    rw [List.append_assoc]
    rw [dropWhile_append_of_forall (by intro c hc; simpa using hpre c hc)]
    exact dropWhile_cons_of_false (by simp)
  have hrev : ('\x7b' :: t').reverse.head? = some '\x7d' := by
    rw [List.head?_reverse]; exact hlast
  obtain ⟨r', hr'⟩ : ∃ r', ('\x7b' :: t').reverse = '\x7d' :: r' := by
    cases hre : ('\x7b' :: t').reverse with
    | nil => rw [hre] at hrev; simp at hrev
    | cons a r' =>
      rw [hre] at hrev
      have ha : a = '\x7d' := by simpa using hrev
      exact ⟨r', by rw [ha]⟩
  have h2 : (('\x7b' :: t') ++ post).reverse.dropWhile (fun c => c ≠ '\x7d') =
      ('\x7b' :: t').reverse := by
    rw [List.reverse_append]
    rw [dropWhile_append_of_forall (by intro c hc; simp at hc; simpa using hpost c hc)]
    rw [hr']
    exact dropWhile_cons_of_false (by simp)
  simp only [String.data]
  rw [h1]
  simp only [List.cons_append] at h2 ⊢
  rw [h2, List.reverse_reverse]
  simp

/-! ## Claims -/

/-- C1 (amended).  For a syntactically valid JSON object embedded in a
larger string, where the leading prose contains no `\x7b` and the trailing
prose contains no `\x7d`, `parseJsonResponse` extracts exactly the
embedded span, parses it, and returns exactly the fields of the embedded
object, provided the object contains the required fields. -/
theorem parseJsonResponse_embedded (pre t post : List Char)
    (requiredFields : List String) (j : Json)
    (hpre : ∀ c ∈ pre, c ≠ '\x7b')
    (hpost : ∀ c ∈ post, c ≠ '\x7d')
    (hhead : t.head? = some '\x7b')
    (hlast : t.getLast? = some '\x7d')
    (hparse : parseJsonChars t = some j)
    (hfields : ∀ f ∈ requiredFields, j.hasField f = true) :
    parseJsonResponse (String.mk (pre ++ t ++ post)) requiredFields = .ok j := by
  have hne : String.mk (pre ++ t ++ post) ≠ "" := by
    intro h
    have : (pre ++ t ++ post) = [] := by
      have := congrArg String.data h
      simpa using this
    cases t with
    | nil => simp at hhead
    | cons a t' => simp at this
  unfold parseJsonResponse
  rw [if_neg hne, extractJsonCandidate_embedded pre t post hpre hpost hhead hlast]
  dsimp only
  rw [hparse]
  dsimp only
  rw [filter_not_isEmpty_of_all hfields]
  simp

/-- C1 (counterexample to the claim as stated).  The valid JSON object
`\x7b"a":1\x7d` contains the required field `a`, but embedded with the
trailing prose ` :\x7d` the greedy span runs to the closing brace of the prose,
the parse and the repaired re-parse both fail, and `parseJsonResponse`
throws instead of returning the fields of the object. -/
theorem parseJsonResponse_embedded_cex :
    parseJson "\x7b\"a\":1\x7d" = some (Json.obj [("a", Json.num 1)]) ∧
    (Json.obj [("a", Json.num 1)]).hasField "a" = true ∧
    parseJsonResponse "Sure! \x7b\"a\":1\x7d :\x7d" ["a"] =
      .error (.finalParse "\x7b\"a\":1\x7d :\x7d") := by
  exact ⟨rfl, rfl, rfl⟩

/-- C1 (witness). -/
theorem parseJsonResponse_embedded_witness :
    parseJsonResponse (String.mk ("Result: ".data ++ "\x7b\"a\":1\x7d".data ++ " done".data)) ["a"] =
      .ok (Json.obj [("a", Json.num 1)]) :=
  parseJsonResponse_embedded "Result: ".data "\x7b\"a\":1\x7d".data " done".data
    ["a"] (Json.obj [("a", Json.num 1)])
    (by decide) (by decide) (by decide) (by decide) rfl (by decide)

/-! ## C2: the repair pass on already-valid JSON -/

lemma replaceScan_eq_self_of_no_match
    {step : List Char → Option (List Char × List Char)} :
    ∀ (cs : List Char) (fuel : Nat), scanMatches step cs = false →
      replaceScan step fuel cs = cs := by
  intro cs
  induction cs with
  | nil => intro fuel _; cases fuel <;> rfl
  | cons c cs ih =>
    intro fuel h
    have h1 : step (c :: cs) = none := by
      cases hs : step (c :: cs) with
      | none => rfl
      | some v => simp [scanMatches, hs] at h
    have h2 : scanMatches step cs = false := by
      simp [scanMatches, h1] at h
      exact h
    cases fuel with
    | zero => rfl
    | succ fuel => simp [replaceScan, h1, ih fuel h2]

lemma dropWhile_eq_self_of_head {p : Char → Bool} {l : List Char}
    (h : ∀ c, l.head? = some c → p c = false) : l.dropWhile p = l := by
  cases l with
  | nil => rfl
  | cons c cs => exact dropWhile_cons_of_false (h c rfl)

lemma jsTrimChars_eq_self {cs : List Char}
    (h1 : ∀ c, cs.head? = some c → isJsSpace c = false)
    (h2 : ∀ c, cs.getLast? = some c → isJsSpace c = false) :
    jsTrimChars cs = cs := by
  unfold jsTrimChars
  rw [dropWhile_eq_self_of_head h1]
  rw [dropWhile_eq_self_of_head (fun c hc => h2 c (by rwa [List.head?_reverse] at hc))]
  exact List.reverse_reverse cs

lemma stripZeroWidth_eq_self {cs : List Char}
    (h : ∀ c ∈ cs, isZeroWidth c = false) : stripZeroWidth cs = cs :=
  List.filter_eq_self.mpr (fun c hc => by simp [h c hc])

lemma expandCtl_eq_self {target sub : Char} {cs : List Char}
    (h : ∀ c ∈ cs, c ≠ target) : expandCtl target sub cs = cs := by
  induction cs with
  | nil => rfl
  | cons c cs ih =>
    have hc : c ≠ target := h c (by simp)
    have ht := ih (fun b hb => h b (by simp [hb]))
    simpa [expandCtl, hc] using congrArg (c :: ·) ht

/-- Under the no-trigger hypotheses the whole repair pass is the identity. -/
lemma repairChars_eq_self {cs : List Char}
    (htrim1 : ∀ c, cs.head? = some c → isJsSpace c = false)
    (htrim2 : ∀ c, cs.getLast? = some c → isJsSpace c = false)
    (hzw : ∀ c ∈ cs, isZeroWidth c = false)
    (h3 : scanMatches stepTrailingComma cs = false)
    (h4 : scanMatches stepQuoteKey cs = false)
    (h5 : scanMatches stepSingleQuote cs = false)
    (h6 : scanMatches stepInvalidEscape cs = false)
    (hctl : ∀ c ∈ cs, c ≠ '\n' ∧ c ≠ '\r' ∧ c ≠ '\t') :
    repairChars cs = cs := by
  simp only [repairChars]
  rw [jsTrimChars_eq_self htrim1 htrim2, stripZeroWidth_eq_self hzw,
    replaceScan_eq_self_of_no_match cs _ h3, replaceScan_eq_self_of_no_match cs _ h4,
    replaceScan_eq_self_of_no_match cs _ h5, replaceScan_eq_self_of_no_match cs _ h6,
    expandCtl_eq_self (fun c hc => (hctl c hc).1),
    expandCtl_eq_self (fun c hc => (hctl c hc).2.1),
    expandCtl_eq_self (fun c hc => (hctl c hc).2.2)]

/-- C2 (amended).  Applying the repair pass to an already-valid JSON
candidate on which none of the repair substitutions fires (no leading or
trailing JS whitespace, no zero-width characters, no occurrence of the
trailing-comma, unquoted-key, single-quoted-value or invalid-escape
patterns, and no literal newline / carriage return / tab) leaves the
candidate unchanged, so it still parses to the same JSON value. -/
theorem repairPass_preserves_valid_json (s : String) (j : Json)
    (htrim1 : ∀ c, s.data.head? = some c → isJsSpace c = false)
    (htrim2 : ∀ c, s.data.getLast? = some c → isJsSpace c = false)
    (hzw : ∀ c ∈ s.data, isZeroWidth c = false)
    (h3 : scanMatches stepTrailingComma s.data = false)
    (h4 : scanMatches stepQuoteKey s.data = false)
    (h5 : scanMatches stepSingleQuote s.data = false)
    (h6 : scanMatches stepInvalidEscape s.data = false)
    (hctl : ∀ c ∈ s.data, c ≠ '\n' ∧ c ≠ '\r' ∧ c ≠ '\t')
    (hparse : parseJson s = some j) :
    repairResponse s = s ∧ parseJson (repairResponse s) = some j := by
  have hs : repairResponse s = s := by
    unfold repairResponse
    rw [repairChars_eq_self htrim1 htrim2 hzw h3 h4 h5 h6 hctl]
  exact ⟨hs, by rw [hs]; exact hparse⟩

/-- C2 (counterexample to the claim as stated).  `\x7b` + newline +
`\x7d` is valid JSON (an empty object with interior whitespace), but the
repair pass rewrites the literal newline to a backslash-n escape outside
any string, producing text that no longer parses at all. -/
theorem repairPass_breaks_valid_json_cex :
    parseJson "\x7b\n\x7d" = some (Json.obj []) ∧
    repairResponse "\x7b\n\x7d" = "\x7b\\n\x7d" ∧
    parseJson (repairResponse "\x7b\n\x7d") = none :=
  ⟨rfl, rfl, rfl⟩

/-- C2 (witness). -/
theorem repairPass_preserves_valid_json_witness :
    repairResponse "\x7b\"a\":1\x7d" = "\x7b\"a\":1\x7d" ∧
    parseJson (repairResponse "\x7b\"a\":1\x7d") = some (Json.obj [("a", Json.num 1)]) :=
  repairPass_preserves_valid_json "\x7b\"a\":1\x7d" (Json.obj [("a", Json.num 1)])
    (by decide) (by decide) (by decide) (by decide) (by decide) (by decide)
    (by decide) (by decide) rfl

/-! ## C3: deterministic MCQ scoring in the analyze route -/

/-- C3.  For every mcq scoring request (non-empty question, response
and correct option, an expected-topics array present, and a question type
that lowercases to `mcq`), the analyze route answers without any model
call, by the uppercase comparison of the selection with the stored correct
option: on a match, score 10, covered topics = expected topics, no missing
topics, and feedback "Correct! " followed by the explanation; otherwise
score 0, the reversed topic sets, and feedback "Incorrect. The correct
answer is X. " followed by the explanation. -/
theorem analyzeRoute_mcq_deterministic
    (question response questionType co : String) (ets : List String)
    (explanation : Option String)
    (hq : question ≠ "") (hr : response ≠ "")
    (hqt : jsToLower questionType = "mcq") (hco : co ≠ "") :
    analyzeRoute question response (some ets) questionType (some co) explanation =
      .mcqResult
        { score := if jsToUpper response == jsToUpper co then 10 else 0
          feedback :=
            if jsToUpper response == jsToUpper co then
              "Correct! " ++ explanation.getD ""
            else
              "Incorrect. The correct answer is " ++ co ++ ". " ++ explanation.getD ""
          coveredTopics := if jsToUpper response == jsToUpper co then ets else []
          missingTopics := if jsToUpper response == jsToUpper co then [] else ets } := by
  have hqt' : questionType ≠ "" := by
    intro h; rw [h] at hqt; exact absurd hqt (by decide)
  simp only [analyzeRoute]
  rw [if_neg (show ¬(question = "" ∨ response = "" ∨ questionType = "") by
        simp [hq, hr, hqt'])]
  rw [if_pos hqt]
  rw [if_neg hco]
  unfold mcqAnalyze
  rfl

/-- C3 (witness): answer "b" against correct option "B" scores 10 with
all expected topics covered. -/
theorem analyzeRoute_mcq_deterministic_witness :
    analyzeRoute "Q1" "b" (some ["t1", "t2"]) "mcq" (some "B") (some "expl") =
      .mcqResult
        { score := if jsToUpper "b" == jsToUpper "B" then 10 else 0
          feedback :=
            if jsToUpper "b" == jsToUpper "B" then "Correct! " ++ (some "expl").getD ""
            else "Incorrect. The correct answer is " ++ "B" ++ ". " ++ (some "expl").getD ""
          coveredTopics := if jsToUpper "b" == jsToUpper "B" then ["t1", "t2"] else []
          missingTopics := if jsToUpper "b" == jsToUpper "B" then [] else ["t1", "t2"] } :=
  analyzeRoute_mcq_deterministic "Q1" "b" "mcq" "B" ["t1", "t2"] (some "expl")
    (by decide) (by decide) (by decide) (by decide)

/-! ## C4: score normalization -/

lemma find?_map_overwrite (fs : List (String × Json)) (k : String) (v : Json)
    (h : fs.any (fun p => p.1 == k) = true) :
    ((fs.map (fun p => if p.1 == k then (p.1, v) else p)).find?
        (fun p => p.1 == k)).map Prod.snd = some v := by
  induction fs with
  | nil => simp at h
  | cons a fs ih =>
    by_cases ha : (a.1 == k) = true
    · have ha' : a.1 = k := by simpa using ha
      simp [List.find?_cons, ha']
    · have h' : fs.any (fun p => p.1 == k) = true := by
        simp only [List.any_cons, (by simpa using ha : (a.1 == k) = false),
          Bool.false_or] at h
        exact h
      have ha' : ¬ a.1 = k := by simpa using ha
      simpa [List.find?_cons, ha'] using ih h'

lemma find?_append_new (fs : List (String × Json)) (k : String) (v : Json)
    (h : fs.any (fun p => p.1 == k) = false) :
    (fs ++ [(k, v)]).find? (fun p => p.1 == k) = some (k, v) := by
  induction fs with
  | nil => simp [List.find?]
  | cons a fs ih =>
    rw [List.any_cons, Bool.or_eq_false_iff] at h
    have ha' : ¬ a.1 = k := by simpa using h.1
    simpa [List.find?_cons, ha'] using ih h.2

/-- Behavior of `find?` on the overwrite-map, looking for a different key. -/
lemma find?_map_overwrite_other (k k' : String) (v : Json) (hne : k' ≠ k) :
    ∀ fs : List (String × Json),
      (fs.map (fun p => if p.1 == k then (p.1, v) else p)).find? (fun p => p.1 == k') =
        fs.find? (fun p => p.1 == k')
  | [] => rfl
  | a :: fs => by
    by_cases hak : a.1 = k
    · have h1 : (a.1 == k) = true := by simpa using hak
      have h2 : (a.1 == k') = false := by
        simp only [beq_eq_false_iff_ne, ne_eq, hak]
        exact fun hh => hne hh.symm
      rw [List.map_cons, if_pos h1]
      simp only [List.find?_cons, h2]
      exact find?_map_overwrite_other k k' v hne fs
    · have h1 : (a.1 == k) = false := by simpa using hak
      rw [List.map_cons, if_neg (by simp [h1])]
      simp only [List.find?_cons]
      by_cases hak' : (a.1 == k') = true
      · simp only [hak']
      · have h2 : (a.1 == k') = false := by simpa using hak'
        simp only [h2]
        exact find?_map_overwrite_other k k' v hne fs

/-- Reading back the key just written. -/
lemma getField_setField_same (fs : List (String × Json)) (k : String) (v : Json) :
    (Json.setField (.obj fs) k v).getField k = some v := by
  simp only [Json.setField]
  by_cases h : fs.any (fun p => p.1 == k) = true
  · rw [if_pos h]
    simp only [Json.getField]
    have hm := find?_map_overwrite fs k v h
    cases hf : (fs.map (fun p => if p.1 == k then (p.1, v) else p)).find?
        (fun p => p.1 == k) with
    | none => rw [hf] at hm; simp at hm
    | some p =>
      rw [hf] at hm
      simp only [Option.map_some'] at hm
      simpa using hm
  · rw [if_neg h]
    simp only [Json.getField]
    rw [find?_append_new fs k v (by simp only [Bool.not_eq_true] at h; exact h)]

/-- Writing one key does not change another. -/
lemma getField_setField_other (fs : List (String × Json)) (k k' : String) (v : Json)
    (hne : k' ≠ k) :
    (Json.setField (.obj fs) k v).getField k' = (Json.obj fs).getField k' := by
  simp only [Json.setField]
  by_cases h : fs.any (fun p => p.1 == k) = true
  · rw [if_pos h]
    simp only [Json.getField]
    rw [find?_map_overwrite_other k k' v hne fs]
  · rw [if_neg h]
    simp only [Json.getField]
    rw [List.find?_append]
    have hsingle : ([((k : String), v)].find? (fun p => p.1 == k')) = none := by
      have : (k == k') = false := by
        simp only [beq_eq_false_iff_ne, ne_eq]
        exact fun hh => hne hh.symm
      simp [List.find?, this]
    rw [hsingle]
    cases hf : fs.find? (fun p => p.1 == k') with
    | none => rfl
    | some p => rfl

/-- The function `setField` keeps objects objects. -/
lemma setField_obj_shape (fs : List (String × Json)) (k : String) (v : Json) :
    ∃ fs', Json.setField (.obj fs) k v = .obj fs' := by
  simp only [Json.setField]
  by_cases h : fs.any (fun p => p.1 == k) = true
  · exact ⟨_, by rw [if_pos h]⟩
  · exact ⟨_, by rw [if_neg h]⟩

/-- One topic-coercion step of `finalizeAnalysis` keeps the result an
object and does not disturb other keys. -/
lemma coerceStep_shape (fs : List (String × Json)) (key : String) :
    ∃ fs', (if isArrField (Json.obj fs) key then Json.obj fs
            else (Json.obj fs).setField key (.arr [])) = Json.obj fs' ∧
           ∀ k', k' ≠ key → (Json.obj fs').getField k' = (Json.obj fs).getField k' := by
  by_cases h : isArrField (Json.obj fs) key = true
  · exact ⟨fs, by rw [if_pos h], fun k' _ => rfl⟩
  · obtain ⟨fs', hfs'⟩ := setField_obj_shape fs key (.arr [])
    refine ⟨fs', by rw [if_neg h]; exact hfs', fun k' hk' => ?_⟩
    rw [← hfs']
    exact getField_setField_other fs key k' _ hk'

/-- The `score` field of the finalized analysis of an object whose `score`
is the number `s` is the normalized score. -/
lemma getField_finalizeAnalysis_score (fs : List (String × Json)) (s : ℚ)
    (h : (Json.obj fs).getField "score" = some (.num s)) :
    (finalizeAnalysis (.obj fs)).getField "score" =
      some (.num (normalizeScore s)) := by
  have hn : numField? (.obj fs) "score" = some s := by
    unfold numField?; rw [h]
  simp only [finalizeAnalysis, hn]
  obtain ⟨fs1, hfs1⟩ := setField_obj_shape fs "score" (.num (normalizeScore s))
  rw [hfs1]
  have hsc1 : (Json.obj fs1).getField "score" = some (.num (normalizeScore s)) := by
    rw [← hfs1]; exact getField_setField_same fs "score" _
  obtain ⟨fs2, hfs2, hp2⟩ := coerceStep_shape fs1 "coveredTopics"
  rw [hfs2]
  have hsc2 : (Json.obj fs2).getField "score" = some (.num (normalizeScore s)) := by
    rw [hp2 "score" (by decide)]; exact hsc1
  obtain ⟨fs3, hfs3, hp3⟩ := coerceStep_shape fs2 "missingTopics"
  rw [hfs3]
  rw [hp3 "score" (by decide)]
  exact hsc2

/-- C4.  Whenever the model returned a numeric `score`, the finalized
analysis carries a score in the interval `[0, 10]`; and when the returned
value exceeded 10 it is first divided by 10 and then clamped to
`[0, 10]`. -/
theorem analyzeScore_clamped (j : Json) (s : ℚ)
    (h : j.getField "score" = some (.num s)) :
    ∃ s', (finalizeAnalysis j).getField "score" = some (.num s') ∧
      0 ≤ s' ∧ s' ≤ 10 ∧
      (10 < s → s' = max 0 (min 10 (s / 10))) := by
  obtain ⟨fs, rfl⟩ : ∃ fs, j = .obj fs := by
    cases j with
    | obj fs => exact ⟨fs, rfl⟩
    | null => simp [Json.getField] at h
    | bool b => simp [Json.getField] at h
    | num q => simp [Json.getField] at h
    | str t => simp [Json.getField] at h
    | arr l => simp [Json.getField] at h
  refine ⟨normalizeScore s, getField_finalizeAnalysis_score fs s h, ?_, ?_, ?_⟩
  · exact le_max_left 0 _
  · exact max_le (by norm_num) (min_le_left 10 _)
  · intro hs
    simp only [normalizeScore]
    rw [if_pos hs, ← min_assoc, min_self]

/-- C4 (witness): a model-returned score of 85 is normalized into
`[0, 10]` by the divide-by-10-then-clamp rule (to 8.5). -/
theorem analyzeScore_clamped_witness :
    (∃ s', (finalizeAnalysis (Json.obj [("score", Json.num 85)])).getField "score" =
        some (.num s') ∧ 0 ≤ s' ∧ s' ≤ 10 ∧
        (10 < (85 : ℚ) → s' = max 0 (min 10 ((85 : ℚ) / 10)))) ∧
    normalizeScore 85 = mkRat 17 2 := by
  constructor
  · exact analyzeScore_clamped (Json.obj [("score", Json.num 85)]) 85 rfl
  · simp only [normalizeScore]
    rw [Rat.mkRat_eq_div]
    norm_num [min_def, max_def]

/-! ## C6: topic-array coercion in `analyzeResponse` -/

/-- When both topic fields are present but hold non-array values, the
finalized analysis carries empty arrays for both. -/
lemma finalize_topics_coerced (fs : List (String × Json)) (cv mv : Json)
    (hcv : (Json.obj fs).getField "coveredTopics" = some cv)
    (hcvA : cv.isArr = false)
    (hmv : (Json.obj fs).getField "missingTopics" = some mv)
    (hmvA : mv.isArr = false) :
    (finalizeAnalysis (.obj fs)).getField "coveredTopics" = some (.arr []) ∧
    (finalizeAnalysis (.obj fs)).getField "missingTopics" = some (.arr []) := by
  have notArr : ∀ (fs' : List (String × Json)) (key : String) (w : Json),
      (Json.obj fs').getField key = some w → w.isArr = false →
      isArrField (Json.obj fs') key = false := by
    intro fs' key w hw hwA
    unfold isArrField
    rw [hw]
    cases w <;> simp_all [Json.isArr]
  simp only [finalizeAnalysis]
  cases hn : numField? (.obj fs) "score" <;>
  · dsimp only
    obtain ⟨fs1, hfs1⟩ := setField_obj_shape fs "score" _
    rw [hfs1]
    have hcv1 : (Json.obj fs1).getField "coveredTopics" = some cv := by
      rw [← hfs1, getField_setField_other fs "score" "coveredTopics" _ (by decide)]
      exact hcv
    have hmv1 : (Json.obj fs1).getField "missingTopics" = some mv := by
      rw [← hfs1, getField_setField_other fs "score" "missingTopics" _ (by decide)]
      exact hmv
    rw [notArr fs1 "coveredTopics" cv hcv1 hcvA]
    simp only [Bool.false_eq_true, if_false]
    obtain ⟨fs2, hfs2⟩ := setField_obj_shape fs1 "coveredTopics" (.arr [])
    rw [hfs2]
    have hcv2 : (Json.obj fs2).getField "coveredTopics" = some (.arr []) := by
      rw [← hfs2]; exact getField_setField_same fs1 "coveredTopics" _
    have hmv2 : (Json.obj fs2).getField "missingTopics" = some mv := by
      rw [← hfs2, getField_setField_other fs1 "coveredTopics" "missingTopics" _ (by decide)]
      exact hmv1
    rw [notArr fs2 "missingTopics" mv hmv2 hmvA]
    simp only [Bool.false_eq_true, if_false]
    obtain ⟨fs3, hfs3⟩ := setField_obj_shape fs2 "missingTopics" (.arr [])
    rw [hfs3]
    constructor
    · rw [← hfs3, getField_setField_other fs2 "missingTopics" "coveredTopics" _ (by decide)]
      exact hcv2
    · rw [← hfs3]; exact getField_setField_same fs2 "missingTopics" _

/-- C6 (amended).  When the parsed scoring response contains the four
required fields but `coveredTopics` / `missingTopics` hold non-sequence
values, `analyzeResponse` still succeeds and coerces both to empty
sequences.  (Omission of either field instead fails the parse: they are on
the required-fields list.) -/
theorem analyzeTopics_coerced (s : String) (j cv mv : Json)
    (hp : parseJsonResponse s analyzeRequiredFields = .ok j)
    (hcv : j.getField "coveredTopics" = some cv) (hcvA : cv.isArr = false)
    (hmv : j.getField "missingTopics" = some mv) (hmvA : mv.isArr = false) :
    ∃ a, analyzeResponseFromContent s = .ok a ∧
      a.getField "coveredTopics" = some (.arr []) ∧
      a.getField "missingTopics" = some (.arr []) := by
  obtain ⟨fs, rfl⟩ : ∃ fs, j = .obj fs := by
    cases j with
    | obj fs => exact ⟨fs, rfl⟩
    | null => simp [Json.getField] at hcv
    | bool b => simp [Json.getField] at hcv
    | num q => simp [Json.getField] at hcv
    | str t => simp [Json.getField] at hcv
    | arr l => simp [Json.getField] at hcv
  refine ⟨finalizeAnalysis (.obj fs), ?_, ?_, ?_⟩
  · unfold analyzeResponseFromContent
    rw [hp]
    rfl
  · exact (finalize_topics_coerced fs cv mv hcv hcvA hmv hmvA).1
  · exact (finalize_topics_coerced fs cv mv hcv hcvA hmv hmvA).2

/-- C6 (counterexample to the claim as stated).  A model response that
omits `coveredTopics` and `missingTopics` makes the scoring pipeline fail
(they are required fields of the parse), rather than being coerced to
empty sequences. -/
theorem analyzeTopics_omitted_cex :
    analyzeResponseFromContent "\x7b\"score\":5,\"feedback\":\"ok\"\x7d" =
      .error (.missingAfterCleaning ["coveredTopics", "missingTopics"]
        "\x7b\"score\":5,\"feedback\":\"ok\"\x7d") := rfl

/-- C6 (witness): non-array topic values (a number and a string) are
coerced to empty arrays. -/
theorem analyzeTopics_coerced_witness :
    ∃ a, analyzeResponseFromContent
        "\x7b\"score\":5,\"feedback\":\"ok\",\"coveredTopics\":3,\"missingTopics\":\"x\"\x7d" =
        .ok a ∧
      a.getField "coveredTopics" = some (.arr []) ∧
      a.getField "missingTopics" = some (.arr []) :=
  analyzeTopics_coerced
    "\x7b\"score\":5,\"feedback\":\"ok\",\"coveredTopics\":3,\"missingTopics\":\"x\"\x7d"
    (Json.obj [("score", Json.num 5), ("feedback", Json.str "ok"),
      ("coveredTopics", Json.num 3), ("missingTopics", Json.str "x")])
    (Json.num 3) (Json.str "x") rfl rfl rfl rfl rfl

/-! ## C7: the MCQ question validator -/

/-- The generic (type-independent) well-formedness of a parsed question
payload: truthy, all four top-level fields present, `expectedTopics` an
array and `difficulty` a number. -/
def mcqGenericOk (j : Json) : Prop :=
  j.truthy = true ∧
  j.hasField "question" = true ∧ j.hasField "expectedTopics" = true ∧
  j.hasField "difficulty" = true ∧ j.hasField "modelAnswer" = true ∧
  (∃ ts, j.getField "expectedTopics" = some (.arr ts)) ∧
  (∃ d, j.getField "difficulty" = some (.num d))

/-- C7.  The validator rejects an mcq payload whose options object is
missing any one of the labels A-D; rejects one whose `correctOption` is not
one of the exact strings A-D; and accepts a well-formed payload with all
four option labels, a `correctOption` drawn from that set, and a non-empty
explanation string. -/
theorem validateQuestionResponse_mcq :
    (∀ (j ma : Json) (optsFs : List (String × Json)) (L : String),
       mcqGenericOk j → j.getField "modelAnswer" = some ma →
       ma.getField "options" = some (.obj optsFs) → L ∈ mcqLabels →
       (Json.obj optsFs).hasField L = false →
       ∃ msg, validateQuestionResponse j "mcq" = .error msg) ∧
    (∀ (j ma : Json) (optsFs : List (String × Json)),
       mcqGenericOk j → j.getField "modelAnswer" = some ma →
       ma.getField "options" = some (.obj optsFs) →
       (∀ s, ma.getField "correctOption" = some (.str s) → s ∉ mcqLabels) →
       ∃ msg, validateQuestionResponse j "mcq" = .error msg) ∧
    (∀ (j ma : Json) (optsFs : List (String × Json)) (co ex : String),
       mcqGenericOk j → j.getField "modelAnswer" = some ma →
       ma.getField "options" = some (.obj optsFs) →
       (∀ L ∈ mcqLabels, (Json.obj optsFs).hasField L = true) →
       ma.getField "correctOption" = some (.str co) → co ∈ mcqLabels →
       ma.getField "explanation" = some (.str ex) → ex ≠ "" →
       validateQuestionResponse j "mcq" = .ok j) := by
  have genericStep : ∀ (j ma : Json), mcqGenericOk j →
      j.getField "modelAnswer" = some ma →
      ∀ (optsFs : List (String × Json)),
      ma.getField "options" = some (.obj optsFs) →
      validateQuestionResponse j "mcq" =
        (if ¬ (mcqLabels.filter (fun o => !(Json.obj optsFs).hasField o)).isEmpty then
           .error ("Missing MCQ options: " ++
             String.intercalate ", " (mcqLabels.filter (fun o => !(Json.obj optsFs).hasField o)))
         else if !(match ma.getField "correctOption" with
                   | some (.str s) => mcqLabels.contains s
                   | _ => false) then
           .error "MCQ response must include a valid correctOption (A, B, C, or D)"
         else if !(match ma.getField "explanation" with
                   | some (.str s) => decide (s ≠ "")
                   | _ => false) then
           .error "MCQ response must include an explanation"
         else .ok j) := by
    intro j ma hgen hma optsFs hopts
    obtain ⟨ht, hf1, hf2, hf3, hf4, ⟨ts, hts⟩, ⟨d, hd⟩⟩ := hgen
    unfold validateQuestionResponse
    dsimp only
    rw [if_neg (fun hh => hh ht)]
    have hflt : (["question", "expectedTopics", "difficulty", "modelAnswer"].filter
        (fun f => !j.hasField f)) = [] := by
      simp [List.filter, hf1, hf2, hf3, hf4]
    rw [hflt]
    rw [if_neg (by simp)]
    rw [hts, hd]
    dsimp only
    rw [if_neg (by simp)]
    rw [if_neg (by simp)]
    rw [hma]
    dsimp only [Option.getD]
    rw [if_pos (show jsToLower "mcq" = "mcq" by rfl)]
    rw [hopts]
    dsimp only [truthyOpt, typeofIsObject, Json.truthy, Option.getD]
    rw [if_neg (by simp)]
  refine ⟨?_, ?_, ?_⟩
  · intro j ma optsFs L hgen hma hopts hL hmiss
    rw [genericStep j ma hgen hma optsFs hopts]
    have hmem : L ∈ mcqLabels.filter (fun o => !(Json.obj optsFs).hasField o) :=
      List.mem_filter.mpr ⟨hL, by rw [hmiss]; rfl⟩
    rw [if_pos ?_]
    · exact ⟨_, rfl⟩
    · simp only [List.isEmpty_iff]
      exact fun hh => by rw [hh] at hmem; simp at hmem
  · intro j ma optsFs hgen hma hopts hco
    rw [genericStep j ma hgen hma optsFs hopts]
    by_cases hmiss : ¬ (mcqLabels.filter (fun o => !(Json.obj optsFs).hasField o)).isEmpty
    · rw [if_pos hmiss]; exact ⟨_, rfl⟩
    · rw [if_neg hmiss]
      have hcoFalse : (match ma.getField "correctOption" with
          | some (.str s) => mcqLabels.contains s
          | _ => false) = false := by
        cases hget : ma.getField "correctOption" with
        | none => rfl
        | some v =>
          cases v with
          | str s =>
            have hns := hco s hget
            dsimp only
            exact Bool.eq_false_iff.mpr
              (fun hc => hns (List.mem_of_elem_eq_true hc))
          | null => rfl
          | bool b => rfl
          | num q => rfl
          | arr l => rfl
          | obj fs => rfl
      rw [hcoFalse]
      rw [if_pos (by decide)]
      exact ⟨_, rfl⟩
  · intro j ma optsFs co ex hgen hma hopts hall hco hcoMem hex hexNe
    rw [genericStep j ma hgen hma optsFs hopts]
    have hflt : (mcqLabels.filter (fun o => !(Json.obj optsFs).hasField o)) = [] := by
      rw [List.filter_eq_nil_iff]
      intro a ha
      rw [hall a ha]
      simp
    rw [hflt]
    rw [if_neg (by simp)]
    rw [hco]
    dsimp only
    rw [show mcqLabels.contains co = true from List.elem_eq_true_of_mem hcoMem]
    rw [if_neg (by simp)]
    rw [hex]
    dsimp only
    rw [show (decide ¬ex = "") = true by simpa using hexNe]
    rw [if_neg (by simp)]

/-- C7 (witness): a fully well-formed mcq payload is accepted; dropping
option C is rejected; correctOption "E" is rejected. -/
theorem validateQuestionResponse_mcq_witness :
    validateQuestionResponse
      (Json.obj [("question", .str "q"), ("expectedTopics", .arr []),
        ("difficulty", .num 1),
        ("modelAnswer", .obj [("options", .obj [("A", .str "a"), ("B", .str "b"),
          ("C", .str "c"), ("D", .str "d")]),
          ("correctOption", .str "B"), ("explanation", .str "because")])]) "mcq" =
      .ok (Json.obj [("question", .str "q"), ("expectedTopics", .arr []),
        ("difficulty", .num 1),
        ("modelAnswer", .obj [("options", .obj [("A", .str "a"), ("B", .str "b"),
          ("C", .str "c"), ("D", .str "d")]),
          ("correctOption", .str "B"), ("explanation", .str "because")])]) ∧
    (∃ msg, validateQuestionResponse
      (Json.obj [("question", .str "q"), ("expectedTopics", .arr []),
        ("difficulty", .num 1),
        ("modelAnswer", .obj [("options", .obj [("A", .str "a"), ("B", .str "b"),
          ("D", .str "d")]),
          ("correctOption", .str "B"), ("explanation", .str "because")])]) "mcq" =
      .error msg) ∧
    (∃ msg, validateQuestionResponse
      (Json.obj [("question", .str "q"), ("expectedTopics", .arr []),
        ("difficulty", .num 1),
        ("modelAnswer", .obj [("options", .obj [("A", .str "a"), ("B", .str "b"),
          ("C", .str "c"), ("D", .str "d")]),
          ("correctOption", .str "E"), ("explanation", .str "because")])]) "mcq" =
      .error msg) := by
  refine ⟨?_, ?_, ?_⟩
  · exact validateQuestionResponse_mcq.2.2 _ _ _ "B" "because"
      ⟨rfl, rfl, rfl, rfl, rfl, ⟨[], rfl⟩, ⟨1, rfl⟩⟩ rfl rfl
      (by decide) rfl (by decide) rfl (by decide)
  · exact validateQuestionResponse_mcq.1 _ _ _ "C"
      ⟨rfl, rfl, rfl, rfl, rfl, ⟨[], rfl⟩, ⟨1, rfl⟩⟩ rfl rfl
      (by decide) rfl
  · refine validateQuestionResponse_mcq.2.1 _ _ _
      ⟨rfl, rfl, rfl, rfl, rfl, ⟨[], rfl⟩, ⟨1, rfl⟩⟩ rfl rfl ?_
    intro s hs
    have h0 : (some (Json.str "E") : Option Json) = some (Json.str s) := by
      rw [← hs]; rfl
    have h1 : Json.str "E" = Json.str s := Option.some.inj h0
    injection h1 with h2
    subst h2
    decide

/-! ## C5: the difficulty tier embedded in the prompt -/

set_option maxRecDepth 10000

/-- C5 (code-bug evidence).  The question route lowercases the
difficulty label before it reaches the prompt builder, but the builder's
tier ternary compares case-sensitively against "Easy"/"Medium", so every
request — including the Python/Easy/mcq/ordinal-1 scenario — embeds tier 3;
the builder applied to the capitalized label would have produced 1. -/
theorem questionRoute_difficulty_tier_bug :
    questionRouteTier "Easy" = 3 ∧
    questionRouteTier "Medium" = 3 ∧
    questionRouteTier "Hard" = 3 ∧
    difficultyTierLiteral "Easy" = 1 ∧
    containsSub ("\"difficulty\": 3".data)
      ((questionRoutePrompt "Python" "Easy" 1 "mcq").data) = true ∧
    containsSub ("\"difficulty\": 1".data)
      ((questionRoutePrompt "Python" "Easy" 1 "mcq").data) = false := by
  refine ⟨rfl, rfl, rfl, rfl, by decide, by decide⟩

/-! ## C8: the rate-limit signal is not surfaced as 429 -/

/-- C8 (code-bug evidence).  A remote HTTP 429 makes `makeGroqRequest`
throw the message "Rate limit exceeded", but the question route tests
the message with a case-sensitive includes test against the lowercase
text rate limit, which that message fails — so the catch clause in the route re-throws and the response is the generic 500,
not the distinguished 429. -/
theorem rateLimit_not_surfaced_as_429 :
    (makeGroqRequest (some "key") "prompt" 0 0 0
        (fun _ => .httpResponse 429 "Too Many Requests" .null)).1 =
      .error .rateLimit ∧
    GroqError.message .rateLimit = "Rate limit exceeded" ∧
    jsIncludes (GroqError.message .rateLimit) "rate limit" = false ∧
    questionRouteErrorStatus .rateLimit = 500 :=
  ⟨rfl, rfl, by decide, rfl⟩

/-! ## C9: rate-limiter spacing -/

/-- C9.  Each completed `waitForRateLimit` call records its own return
instant as the new `lastRequestTime`; and when a second call enters at or
after the timestamp recorded by the first call (monotone clock) with a
nonnegative sleep overshoot, the moment it returns is at least
`MIN_REQUEST_INTERVAL` (3000 ms) after that recorded timestamp.  The model
is a total function, so every call returns. -/
theorem waitForRateLimit_spacing (last now1 o1 now2 o2 : ℤ)
    (ho2 : 0 ≤ o2)
    (_hmono : (waitForRateLimit last now1 o1).2 ≤ now2) :
    (waitForRateLimit last now1 o1).2 = (waitForRateLimit last now1 o1).1 ∧
    (waitForRateLimit (waitForRateLimit last now1 o1).2 now2 o2).2 =
      (waitForRateLimit (waitForRateLimit last now1 o1).2 now2 o2).1 ∧
    (waitForRateLimit last now1 o1).2 + MIN_REQUEST_INTERVAL ≤
      (waitForRateLimit (waitForRateLimit last now1 o1).2 now2 o2).1 := by
  refine ⟨rfl, rfl, ?_⟩
  simp only [waitForRateLimit, MIN_REQUEST_INTERVAL] at *
  split <;> omega

/-- C9 (witness): with the first call recording time 3000, a second
call entering at 3000 with no overshoot returns at 6000 = 3000 + 3000. -/
theorem waitForRateLimit_spacing_witness :
    (waitForRateLimit 0 100 0).2 = (waitForRateLimit 0 100 0).1 ∧
    (waitForRateLimit (waitForRateLimit 0 100 0).2 3000 0).2 =
      (waitForRateLimit (waitForRateLimit 0 100 0).2 3000 0).1 ∧
    (waitForRateLimit 0 100 0).2 + MIN_REQUEST_INTERVAL ≤
      (waitForRateLimit (waitForRateLimit 0 100 0).2 3000 0).1 :=
  waitForRateLimit_spacing 0 100 0 3000 0 (by decide) (by decide)

/-! ## C10: missing credential leaves the rate-limiter state untouched -/

/-- C10.  With a falsy API key, `makeGroqRequest` — and with it
`generateQuestion` and `analyzeResponse` — fails with the configuration
error before calling `waitForRateLimit` and before any network request: the
`lastRequestTime` state is returned unchanged and the network-call count is
zero. -/
theorem noKey_fails_before_rateLimiter (apiKey : Option String)
    (h : jsFalsyKey apiKey = true)
    (prompt technology difficulty question response : String)
    (qn : Nat) (questionType : String) (ets : List String)
    (last now o : ℤ) (net : String → NetResult) :
    makeGroqRequest apiKey prompt last now o net =
      (.error .configuration, last, 0) ∧
    generateQuestionRun apiKey technology difficulty qn questionType last now o net =
      (.error .configuration, last, 0) ∧
    analyzeResponseRun apiKey question response ets last now o net =
      (.error .configuration, last, 0) := by
  have hm : makeGroqRequest apiKey prompt last now o net =
      (.error .configuration, last, 0) := by
    unfold makeGroqRequest
    rw [if_pos h]
  have hm2 : ∀ p, makeGroqRequest apiKey p last now o net =
      (.error .configuration, last, 0) := by
    intro p
    unfold makeGroqRequest
    rw [if_pos h]
  refine ⟨hm, ?_, ?_⟩
  · unfold generateQuestionRun
    dsimp only
    rw [hm2]
  · unfold analyzeResponseRun
    rw [if_pos h]

/-- C10 (witness). -/
theorem noKey_fails_before_rateLimiter_witness :
    makeGroqRequest none "p" 7 9 0 (fun _ => .networkFailure "down") =
      (.error .configuration, 7, 0) ∧
    generateQuestionRun none "Python" "Easy" 1 "mcq" 7 9 0 (fun _ => .networkFailure "down") =
      (.error .configuration, 7, 0) ∧
    analyzeResponseRun none "q" "r" ["t"] 7 9 0 (fun _ => .networkFailure "down") =
      (.error .configuration, 7, 0) :=
  noKey_fails_before_rateLimiter none rfl "p" "Python" "Easy" "q" "r" 1 "mcq" ["t"]
    7 9 0 (fun _ => .networkFailure "down")
